import Mathlib

/-
Verification of the NDID ABCI application engine (abci/did/did.go, abci/did/as.go).

Modelling conventions:
- Go strings and byte slices are byte sequences; both are modelled as `List Nat`
  (each entry a byte value < 256).  `bytes` turns an ASCII Lean string literal
  into its byte sequence.
- The iavl versioned tree is modelled by its observable get/set behaviour on the
  keys the engine uses.  The reserved state record lives under the unprefixed
  key "stateKey" while all application data lives under keys prefixed with
  "kvPairKey:"; these key spaces are disjoint (they differ in their first
  byte), so the database is modelled as an association list for the prefixed
  application entries together with an optional state record for the reserved
  key.  json.Marshal/json.Unmarshal of the State record is an injective
  round-trip and is modelled as the identity on the record.
- int64 counters are modelled as Int (no operation here approaches overflow).
- Fallible operations return Option; a Go panic recovered at a lifecycle
  boundary is modelled by the explicit guard that the recovery produces.
-/

namespace Did

/-- A Go byte sequence (string or byte slice). -/
abbrev Bytes := List Nat

/-- Byte sequence of an ASCII string literal. -/
def bytes (s : String) : Bytes := s.data.map Char.toNat

/-- Go strings.Split with the one-byte separator `sep` (used with the byte of
the field delimiter and always with a non-empty separator, where Go Split and
this function agree: the result has one more field than there are separator
occurrences, and splitting the empty string yields one empty field). -/
def splitOnByte (sep : Nat) : Bytes → List Bytes
  | [] => [[]]
  | b :: rest =>
    if b = sep then
      [] :: splitOnByte sep rest
    else
      match splitOnByte sep rest with
      | f :: fs => (b :: f) :: fs
      | [] => [[b]]

/-- Go strings.Replace(s, " ", "+", -1): replace every space byte by a plus
byte (CheckTx at did.go:212). -/
def replaceSpacePlus (s : Bytes) : Bytes :=
  s.map (fun b => if b = 32 then 43 else b)

/-- Value of one character of the standard base64 alphabet, none for a
character outside the alphabet. -/
def b64Val (b : Nat) : Option Nat :=
  if 65 ≤ b ∧ b ≤ 90 then some (b - 65)
  else if 97 ≤ b ∧ b ≤ 122 then some (b - 97 + 26)
  else if 48 ≤ b ∧ b ≤ 57 then some (b - 48 + 52)
  else if b = 43 then some 62
  else if b = 47 then some 63
  else none

/-- Decode base64 four-character quantums as Go encoding/base64 StdEncoding
does: the input length must be a multiple of four; a final quantum may end in
"=" or "==" (and then nothing may follow); characters outside the alphabet are
rejected; as in Go, non-zero trailing bits before padding are tolerated. -/
def b64DecodeQuantums : List Nat → Option Bytes
  | [] => some []
  | a :: b :: c :: d :: rest =>
    match b64Val a, b64Val b with
    | some va, some vb =>
      if c = 61 then
        if d = 61 ∧ rest = [] then some [(va * 4 + vb / 16) % 256] else none
      else
        match b64Val c with
        | some vc =>
          if d = 61 then
            if rest = [] then
              some [(va * 4 + vb / 16) % 256, ((vb % 16) * 16 + vc / 4) % 256]
            else none
          else
            match b64Val d with
            | some vd =>
              (b64DecodeQuantums rest).map
                (fun tail =>
                  (va * 4 + vb / 16) % 256 ::
                  ((vb % 16) * 16 + vc / 4) % 256 ::
                  ((vc % 4) * 64 + vd) % 256 :: tail)
            | none => none
        | none => none
    | _, _ => none
  | _ => none

/-- Go base64.StdEncoding.DecodeString: carriage returns and newlines are
skipped, then the input is decoded in four-character quantums. -/
def base64Decode (s : Bytes) : Option Bytes :=
  b64DecodeQuantums (s.filter (fun b => b != 13 && b != 10))

/-- Truncate to a 32-bit word. -/
def w32 (x : Nat) : Nat := x % 4294967296

/-- Rotate a 32-bit word right by `n`. -/
def rotr (n x : Nat) : Nat := w32 ((x <<< (32 - n)) ||| (x >>> n))

/-- Bitwise complement on 32-bit words. -/
def bnot32 (x : Nat) : Nat := x ^^^ 4294967295

def shaCh (x y z : Nat) : Nat := (x &&& y) ^^^ (bnot32 x &&& z)

def shaMaj (x y z : Nat) : Nat := (x &&& y) ^^^ (x &&& z) ^^^ (y &&& z)

def bigSigma0 (x : Nat) : Nat := rotr 2 x ^^^ rotr 13 x ^^^ rotr 22 x

def bigSigma1 (x : Nat) : Nat := rotr 6 x ^^^ rotr 11 x ^^^ rotr 25 x

def smallSigma0 (x : Nat) : Nat := rotr 7 x ^^^ rotr 18 x ^^^ (x >>> 3)

def smallSigma1 (x : Nat) : Nat := rotr 17 x ^^^ rotr 19 x ^^^ (x >>> 10)

/-- The SHA-256 round constants. -/
def shaK : List Nat :=
  [1116352408, 1899447441, 3049323471, 3921009573,
   961987163, 1508970993, 2453635748, 2870763221,
   3624381080, 310598401, 607225278, 1426881987,
   1925078388, 2162078206, 2614888103, 3248222580,
   3835390401, 4022224774, 264347078, 604807628,
   770255983, 1249150122, 1555081692, 1996064986,
   2554220882, 2821834349, 2952996808, 3210313671,
   3336571891, 3584528711, 113926993, 338241895,
   666307205, 773529912, 1294757372, 1396182291,
   1695183700, 1986661051, 2177026350, 2456956037,
   2730485921, 2820302411, 3259730800, 3345764771,
   3516065817, 3600352804, 4094571909, 275423344,
   430227734, 506948616, 659060556, 883997877,
   958139571, 1322822218, 1537002063, 1747873779,
   1955562222, 2024104815, 2227730452, 2361852424,
   2428436474, 2756734187, 3204031479, 3329325298]

/-- The eight-word working state of SHA-256. -/
structure Sha8 where
  a : Nat
  b : Nat
  c : Nat
  d : Nat
  e : Nat
  f : Nat
  g : Nat
  h : Nat
deriving DecidableEq, Repr

/-- The SHA-256 initial hash value. -/
def shaH0 : Sha8 :=
  ⟨1779033703, 3144134277, 1013904242, 2773480762,
   1359893119, 2600822924, 528734635, 1541459225⟩

/-- One round of the SHA-256 compression function. -/
def shaStep (st : Sha8) (k w : Nat) : Sha8 :=
  let t1 := w32 (st.h + bigSigma1 st.e + shaCh st.e st.f st.g + k + w)
  let t2 := w32 (bigSigma0 st.a + shaMaj st.a st.b st.c)
  ⟨w32 (t1 + t2), st.a, st.b, st.c, w32 (st.d + t1), st.e, st.f, st.g⟩

/-- Big-endian bytes of a 32-bit word. -/
def be32 (x : Nat) : Bytes :=
  [x / 16777216 % 256, x / 65536 % 256, x / 256 % 256, x % 256]

/-- Big-endian bytes of a 64-bit word. -/
def be64 (x : Nat) : Bytes :=
  [x / 72057594037927936 % 256, x / 281474976710656 % 256,
   x / 1099511627776 % 256, x / 4294967296 % 256,
   x / 16777216 % 256, x / 65536 % 256, x / 256 % 256, x % 256]

/-- Big-endian 32-bit word of four bytes. -/
def word32Of (l : Bytes) : Nat := l.foldl (fun acc b => acc * 256 + b) 0

/-- Split into consecutive groups of four bytes. -/
def chunks4 : Bytes → List Bytes
  | b0 :: b1 :: b2 :: b3 :: rest => [b0, b1, b2, b3] :: chunks4 rest
  | _ => []

/-- Split into consecutive 64-byte blocks. -/
def chunks64 : Bytes → List Bytes
  | [] => []
  | b :: rest => ((b :: rest).take 64) :: chunks64 ((b :: rest).drop 64)
termination_by l => l.length
decreasing_by simp [List.length_drop]; omega

/-- Extend the sixteen message words by `n` further schedule words. -/
def extendW (w : List Nat) : Nat → List Nat
  | 0 => w
  | n + 1 =>
    let p := extendW w n
    p ++ [w32 (smallSigma1 (p.getD (p.length - 2) 0) + p.getD (p.length - 7) 0 +
               smallSigma0 (p.getD (p.length - 15) 0) + p.getD (p.length - 16) 0)]

/-- The 64-entry SHA-256 message schedule of a block. -/
def schedule (block : Bytes) : List Nat :=
  extendW ((chunks4 block).map word32Of) 48

/-- Process one 64-byte block. -/
def processBlock (h : Sha8) (block : Bytes) : Sha8 :=
  let st := (shaK.zip (schedule block)).foldl (fun st kw => shaStep st kw.1 kw.2) h
  ⟨w32 (h.a + st.a), w32 (h.b + st.b), w32 (h.c + st.c), w32 (h.d + st.d),
   w32 (h.e + st.e), w32 (h.f + st.f), w32 (h.g + st.g), w32 (h.h + st.h)⟩

/-- SHA-256 padding: a 0x80 byte, zeros to 56 mod 64, and the bit length as a
big-endian 64-bit word. -/
def shaPad (msg : Bytes) : Bytes :=
  msg ++ 128 :: List.replicate ((120 - (msg.length + 1) % 64) % 64) 0 ++
    be64 (msg.length * 8)

/-- SHA-256 digest (32 bytes) of a byte sequence, as crypto/sha256 computes it
at did.go:243-249. -/
def sha256 (msg : Bytes) : Bytes :=
  let fin := (chunks64 (shaPad msg)).foldl processBlock shaH0
  be32 fin.a ++ be32 fin.b ++ be32 fin.c ++ be32 fin.d ++
  be32 fin.e ++ be32 fin.f ++ be32 fin.g ++ be32 fin.h

/-- One lowercase hexadecimal digit byte. -/
def hexDigit (n : Nat) : Nat := if n < 10 then 48 + n else 87 + n

/-- Go hex.EncodeToString: lowercase hexadecimal byte text. -/
def hexEncode (bs : Bytes) : Bytes :=
  bs.foldr (fun b acc => hexDigit (b / 16) :: hexDigit (b % 16) :: acc) []


/-- Serialized fields of the engine State record (did.go:47-54; the json tags
size, height, app_hash, uncommit_keys, commit_str; the unexported tree handle
is not serialized).  Serialization is modelled as the identity on this
record. -/
structure StateJson where
  Size : Int
  Height : Int
  AppHash : Bytes
  UncommitKeys : List Bytes
  CommitStr : Bytes
deriving DecidableEq, Repr

/-- The versioned tree, modelled by its observable content: the application
entries (stored under their full, prefixed keys) and the reserved state record
stored under the key "stateKey", which is disjoint from every prefixed key. -/
structure Db where
  app : List (Bytes × Bytes)
  stateRec : Option StateJson
deriving DecidableEq, Repr

/-- Lookup in an association list (tree get). -/
def assocGet : List (Bytes × Bytes) → Bytes → Option Bytes
  | [], _ => none
  | (k1, v1) :: rest, k => if k1 = k then some v1 else assocGet rest k

/-- Store in an association list (tree set). -/
def assocSet : List (Bytes × Bytes) → Bytes → Bytes → List (Bytes × Bytes)
  | [], k, v => [(k, v)]
  | (k1, v1) :: rest, k, v =>
    if k1 = k then (k, v) :: rest else (k1, v1) :: assocSet rest k v

/-- Remove from an association list (tree remove). -/
def assocRemove : List (Bytes × Bytes) → Bytes → List (Bytes × Bytes)
  | [], _ => []
  | (k1, v1) :: rest, k =>
    if k1 = k then assocRemove rest k else (k1, v1) :: assocRemove rest k

/-- The engine state (did.go:47-54): the tree handle together with the
serialized counters and trackers. -/
structure State where
  db : Db
  Size : Int
  Height : Int
  AppHash : Bytes
  UncommitKeys : List Bytes
  CommitStr : Bytes
deriving DecidableEq, Repr

/-- prefixKey (did.go:78-80): prepend the application namespace prefix. -/
def prefixKey (key : Bytes) : Bytes := bytes "kvPairKey:" ++ key

/-- loadState (did.go:56-68): read the reserved record; when it is absent the
zero State (zero counters, nil slices, empty string) is used; the tree handle
is attached. -/
def loadState (db : Db) : State :=
  match db.stateRec with
  | some r =>
    { db := db, Size := r.Size, Height := r.Height, AppHash := r.AppHash,
      UncommitKeys := r.UncommitKeys, CommitStr := r.CommitStr }
  | none =>
    { db := db, Size := 0, Height := 0, AppHash := [], UncommitKeys := [],
      CommitStr := [] }

/-- saveState (did.go:70-76): serialize the record fields of the current state
and store them under the reserved key. -/
def saveState (s : State) : State :=
  { s with db := { s.db with
      stateRec := some ⟨s.Size, s.Height, s.AppHash, s.UncommitKeys, s.CommitStr⟩ } }

/-- The state of a freshly initialized engine (NewDIDApplication, did.go:92-110,
over a new empty database). -/
def initState : State := loadState ⟨[], none⟩

/-- Modelled from the spec: the result-code taxonomy of spec sections 6 and 7
together with the codes referenced by did.go and as.go; the code package is not
among the sources.  The codes are distinct constants. -/
inductive CodeT where
  | OK
  | DecodingError
  | WrongTransactionFormat
  | MethodCanNotBeEmpty
  | UnmarshalError
  | MarshalError
  | RequestIDNotFound
  | RequestIsClosed
  | RequestIsTimedOut
  | NodeIDIsNotExistInASList
  | MethodNotFound
deriving DecidableEq, Repr

/-- A DeliverTx response: result code, log message, opaque result payload. -/
structure ResponseDeliverTx where
  Code : CodeT
  Log : Bytes
  Data : Bytes
deriving DecidableEq, Repr

/-- Modelled from the spec: ReturnDeliverTxLog builds the structured DeliverTx
response from a code, a log text and the extra payload (the helper is not
among the sources; spec section 3, Response). -/
def ReturnDeliverTxLog (code : CodeT) (log extraData : Bytes) : ResponseDeliverTx :=
  ⟨code, log, extraData⟩

/-- A CheckTx response; spec section 6 specifies it as an accepted flag. -/
structure ResponseCheckTx where
  accepted : Bool
deriving DecidableEq, Repr

/-- Modelled from the spec: ReturnCheckTx builds the CheckTx response from the
accepted flag (the helper is not among the sources). -/
def ReturnCheckTx (ok : Bool) : ResponseCheckTx := ⟨ok⟩

/-- Modelled from the spec: the SignData parameter payload, with the fields
as.go accesses (ServiceID, RequestID, Signature); its declaration is not among
the sources. -/
structure SignDataParam where
  ServiceID : Bytes
  RequestID : Bytes
  Signature : Bytes
deriving DecidableEq, Repr

/-- Modelled from the spec: one data request of a Request, with the fields
as.go accesses (ServiceID, As, AnsweredAsIdList). -/
structure DataRequest where
  ServiceID : Bytes
  As : List Bytes
  AnsweredAsIdList : List Bytes
deriving DecidableEq, Repr

/-- Modelled from the spec: a Request record, with the fields as.go accesses
(IsClosed, IsTimedOut, DataRequestList). -/
structure Request where
  IsClosed : Bool
  IsTimedOut : Bool
  DataRequestList : List DataRequest
deriving DecidableEq, Repr

/-- Modelled from the spec: the JSON codec functions the handlers use
(encoding/json is outside the sources).  They are deterministic functions; the
engine is parametrized by them and every theorem below quantifies over them. -/
structure Codec where
  parseSignDataParam : Bytes → Option SignDataParam
  parseRequest : Bytes → Option Request
  marshalSignDataParam : SignDataParam → Option Bytes
  marshalRequest : Request → Option Bytes

/-- SetStateDB (did.go:112-118): append the raw key to the uncommitted-key
tracker unless it is the literal "stateKey", write the value under the
prefixed key, and increment the size counter. -/
def SetStateDB (key value : Bytes) (s : State) : State :=
  { s with
    UncommitKeys :=
      if key ≠ bytes "stateKey" then s.UncommitKeys ++ [key] else s.UncommitKeys,
    db := { s.db with app := assocSet s.db.app (prefixKey key) value },
    Size := s.Size + 1 }

/-- DeleteStateDB (did.go:120-123): remove the prefixed entry and decrement the
size counter; the uncommitted-key tracker is not touched. -/
def DeleteStateDB (key : Bytes) (s : State) : State :=
  { s with
    db := { s.db with app := assocRemove s.db.app (prefixKey key) },
    Size := s.Size - 1 }

/-- signData (as.go:10-81): parse the parameter, load and validate the
referenced request, check the node against the AS lists, and on success write
the updated request and the signature record through SetStateDB. -/
def signData (c : Codec) (param : Bytes) (s : State) (nodeID : Bytes) :
    ResponseDeliverTx × State :=
  match c.parseSignDataParam param with
  | none => (ReturnDeliverTxLog .UnmarshalError (bytes "unmarshal error") [], s)
  | some sd =>
    match assocGet s.db.app (prefixKey (bytes "Request" ++ bytes "|" ++ sd.RequestID)) with
    | none => (ReturnDeliverTxLog .RequestIDNotFound (bytes "Request ID not found") [], s)
    | some requestJSON =>
      match c.parseRequest requestJSON with
      | none => (ReturnDeliverTxLog .UnmarshalError (bytes "unmarshal error") [], s)
      | some request =>
        if request.IsClosed then
          (ReturnDeliverTxLog .RequestIsClosed (bytes "Request is closed") [], s)
        else if request.IsTimedOut then
          (ReturnDeliverTxLog .RequestIsTimedOut (bytes "Request is timed out") [], s)
        else if !(request.DataRequestList.any (fun dr =>
            dr.ServiceID = sd.ServiceID ∧ (dr.As = [] ∨ nodeID ∈ dr.As))) then
          (ReturnDeliverTxLog .NodeIDIsNotExistInASList
            (bytes "Node ID is not exist in AS list") [], s)
        else
          match c.marshalSignDataParam sd with
          | none => (ReturnDeliverTxLog .MarshalError (bytes "marshal error") [], s)
          | some signDataJSON =>
            match c.marshalRequest { request with
                DataRequestList := request.DataRequestList.map (fun dr =>
                  if dr.ServiceID = sd.ServiceID then
                    { dr with AnsweredAsIdList := dr.AnsweredAsIdList ++ [nodeID] }
                  else dr) } with
            | none => (ReturnDeliverTxLog .MarshalError (bytes "marshal error") [], s)
            | some requestJSON1 =>
              (ReturnDeliverTxLog .OK (bytes "success") sd.RequestID,
               SetStateDB (bytes "SignData" ++ bytes "|" ++ sd.Signature) signDataJSON
                 (SetStateDB (bytes "Request" ++ bytes "|" ++ sd.RequestID) requestJSON1 s))

/-- Modelled from the spec: the privileged validator-transaction detector
(spec section 4.6); validator transactions carry the "val:" tag that also
marks validator records (see the migration tool), recognizable on the raw
transaction bytes before any decoding. -/
def isValidatorTx (tx : Bytes) : Bool := (bytes "val:").isPrefixOf tx

/-- Modelled from the spec: execValidatorTx (spec section 4.6) records a
pending validator-set change; its body is not among the sources and no claim
depends on it (every relevant theorem excludes validator transactions), so it
is modelled as an OK response leaving the engine state unchanged. -/
def execValidatorTx (_tx : Bytes) (s : State) : ResponseDeliverTx × State :=
  (ReturnDeliverTxLog .OK [] [], s)

/-- Modelled from the spec: the method router (spec section 4.2) maps a method
name to its handler and answers every unknown name with a not-found-class
failure without any state access.  Of the registered business handlers,
signData (method "SignData") is the one among the sources and the one
dispatched here; the remaining handlers are omitted, as no claim mentions them
and section 4.2 makes the handler table pluggable. -/
def DeliverTxRouter (c : Codec) (method param _nonce _signature nodeID : Bytes)
    (s : State) : ResponseDeliverTx × State :=
  if method = bytes "SignData" then signData c param s nodeID
  else (ReturnDeliverTxLog .MethodNotFound (bytes "method not found") [], s)

/-- DeliverTx (did.go:158-194): dispatch validator transactions, base64-decode
the raw bytes, split into the five envelope fields and route.  Fewer than five
fields makes the field extraction at did.go:183-186 panic, and the deferred
recover at did.go:160-165 turns that into a WrongTransactionFormat response
with the state untouched. -/
def DeliverTx (c : Codec) (tx : Bytes) (s : State) : ResponseDeliverTx × State :=
  if isValidatorTx tx then execValidatorTx tx s
  else
    match base64Decode tx with
    | none => (ReturnDeliverTxLog .DecodingError (bytes "illegal base64 data") [], s)
    | some txString =>
      if 5 ≤ (splitOnByte 124 txString).length then
        if (splitOnByte 124 txString).getD 0 [] ≠ [] then
          DeliverTxRouter c ((splitOnByte 124 txString).getD 0 [])
            ((splitOnByte 124 txString).getD 1 []) ((splitOnByte 124 txString).getD 2 [])
            ((splitOnByte 124 txString).getD 3 []) ((splitOnByte 124 txString).getD 4 []) s
        else
          (ReturnDeliverTxLog .MethodCanNotBeEmpty (bytes "method can not be empty") [], s)
      else
        (ReturnDeliverTxLog .WrongTransactionFormat (bytes "wrong transaction format") [], s)

/-- CheckTx (did.go:196-232): accept validator transactions, replace spaces by
pluses, base64-decode, split, and accept exactly when the five envelope fields
are all non-empty; a decode failure, or the index panic on fewer than five
fields (recovered at did.go:198-203), yields a rejection.  No store access
occurs on any path. -/
def CheckTx (tx : Bytes) (s : State) : ResponseCheckTx × State :=
  if isValidatorTx tx then (ReturnCheckTx true, s)
  else
    match base64Decode (replaceSpacePlus tx) with
    | none => (ReturnCheckTx false, s)
    | some txString =>
      if 5 ≤ (splitOnByte 124 txString).length then
        if (splitOnByte 124 txString).getD 0 [] ≠ [] ∧
           (splitOnByte 124 txString).getD 1 [] ≠ [] ∧
           (splitOnByte 124 txString).getD 2 [] ≠ [] ∧
           (splitOnByte 124 txString).getD 3 [] ≠ [] ∧
           (splitOnByte 124 txString).getD 4 [] ≠ [] then
          (ReturnCheckTx true, s)
        else (ReturnCheckTx false, s)
      else (ReturnCheckTx false, s)

/-- The accumulation loop of Commit (did.go:237-242): walk the uncommitted keys
in order and append raw key bytes followed by current raw value bytes for every
key whose current store value is non-absent. -/
def commitLoop (db : Db) : List Bytes → Bytes → Bytes
  | [], acc => acc
  | k :: rest, acc =>
    match assocGet db.app (prefixKey k) with
    | some v => commitLoop db rest (acc ++ k ++ v)
    | none => commitLoop db rest acc

/-- The commit accumulator as the specification words it: for each key of the
uncommitted-key list, in insertion order and without deduplication, the raw key
bytes followed by the raw current value bytes when the value is non-absent, and
nothing otherwise, all concatenated. -/
def commitAccSpec (db : Db) (keys : List Bytes) : Bytes :=
  (keys.map (fun k =>
    match assocGet db.app (prefixKey k) with
    | some v => k ++ v
    | none => [])).foldr (fun a b => a ++ b) []

/-- Commit (did.go:234-257): accumulate over the uncommitted keys; if the
accumulator is non-empty chain it onto the previous commit string through
SHA-256 and hex; publish the commit string as the app hash; advance the
height; persist the state record; clear the uncommitted keys; and answer with
the app hash. -/
def Commit (s : State) : Bytes × State :=
  let newAppHashString := commitLoop s.db s.UncommitKeys []
  let newCommitStr :=
    if newAppHashString ≠ [] then
      hexEncode (sha256 (s.CommitStr ++ newAppHashString))
    else s.CommitStr
  let s1 := { s with CommitStr := newCommitStr, AppHash := newCommitStr,
                     Height := s.Height + 1 }
  let s2 := saveState s1
  let s3 := { s2 with UncommitKeys := [] }
  (s3.AppHash, s3)

/-- One consensus-engine call of the block-processing cycle relevant to the
determinism property: a DeliverTx with raw transaction bytes, or a Commit. -/
inductive Call where
  | deliver (tx : Bytes)
  | commit
deriving DecidableEq, Repr

/-- Run a sequence of calls against an engine state, collecting the
ResponseCommit data (the published app hash) of every Commit in order. -/
def runCalls (c : Codec) (s : State) : List Call → State × List Bytes
  | [] => (s, [])
  | .deliver tx :: rest => runCalls c (DeliverTx c tx s).2 rest
  | .commit :: rest =>
    let r := Commit s
    let t := runCalls c r.2 rest
    (t.1, r.1 :: t.2)


/-- A codec whose parse and marshal functions all fail; a concrete Codec
instance for witnesses. -/
def trivialCodec : Codec := ⟨fun _ => none, fun _ => none, fun _ => none, fun _ => none⟩

/-- The commit string Commit publishes, phrased through the
specification-side accumulator. -/
def commitStrAfter (s : State) : Bytes :=
  if commitAccSpec s.db s.UncommitKeys ≠ [] then
    hexEncode (sha256 (s.CommitStr ++ commitAccSpec s.db s.UncommitKeys))
  else s.CommitStr

/-- The imperative accumulation loop of Commit computes the specification-side
accumulator. -/
theorem commitLoop_eq_accSpec (db : Db) (keys : List Bytes) (acc : Bytes) :
    commitLoop db keys acc = acc ++ commitAccSpec db keys := by
  induction keys generalizing acc with
  | nil => simp [commitLoop, commitAccSpec]
  | cons k rest ih =>
    cases h : assocGet db.app (prefixKey k) with
    | some v => simp [commitLoop, commitAccSpec, h, ih, List.append_assoc]
    | none => simp [commitLoop, commitAccSpec, h, ih]

/-- Reading back a key just stored in the association list yields the stored
value. -/
theorem assocGet_assocSet_self (l : List (Bytes × Bytes)) (k v : Bytes) :
    assocGet (assocSet l k v) k = some v := by
  induction l with
  | nil => simp [assocSet, assocGet]
  | cons p rest ih =>
    obtain ⟨k1, v1⟩ := p
    by_cases h : k1 = k
    · simp [assocSet, assocGet, h]
    · simp [assocSet, assocGet, h, ih]

/-- A validator-tagged transaction is never valid base64: the tag byte 58 is
outside the alphabet, so the outer decode fails on it. -/
theorem validator_not_base64 (tx : Bytes) (h : isValidatorTx tx = true) :
    base64Decode tx = none := by
  unfold isValidatorTx at h
  rw [ List.isPrefixOf_iff_prefix] at h
  obtain ⟨t, ht⟩ := h
  have hb : bytes "val:" = [118, 97, 108, 58] := by decide
  rw [hb] at ht
  subst ht
  simp [base64Decode, List.filter, b64DecodeQuantums, b64Val]

/-- CheckTx never changes the engine state. -/
theorem CheckTx_state (tx : Bytes) (s : State) : (CheckTx tx s).2 = s := by
  unfold CheckTx
  repeat' split
  all_goals rfl

/-- Every non-OK return of signData happens before its first SetStateDB call,
leaving the state unchanged. -/
theorem signData_frame (c : Codec) (param : Bytes) (s : State) (nodeID : Bytes) :
    (signData c param s nodeID).1.Code = CodeT.OK ∨ (signData c param s nodeID).2 = s := by
  unfold signData
  repeat' split
  all_goals simp [ReturnDeliverTxLog]

/-- C1: for all call sequences, two independently initialized engine instances
fed the identical sequence of DeliverTx and Commit calls publish identical
app hashes after each Commit (bit-for-bit equal ResponseCommit data): the
engine is a deterministic function of its inputs, so the commit-hash trace of
the run from the freshly initialized state is a function of the call sequence
alone. -/
theorem C1_determinism (c : Codec) (calls : List Call) (s1 s2 : State)
    (h1 : s1 = initState) (h2 : s2 = initState) :
    (runCalls c s1 calls).2 = (runCalls c s2 calls).2 := by
  subst h1; subst h2; rfl

theorem C1_determinism_witness :
    ((initState : State) = initState) ∧
    (runCalls trivialCodec initState [Call.commit]).2 =
      (runCalls trivialCodec initState [Call.commit]).2 :=
  ⟨rfl, C1_determinism trivialCodec [Call.commit] initState initState rfl rfl⟩

/-- C2: Commit iterates the uncommitted keys in insertion order without
deduplication, concatenating raw key and current non-absent raw value bytes;
when the accumulator is non-empty the new commit string is the hex encoding of
the SHA-256 digest of the previous commit string followed by the accumulator,
otherwise the commit string is unchanged; the app hash becomes the byte
representation of the commit string; the height increments by exactly one in
either case; the state record is persisted under the reserved key; the
uncommitted keys are reset to empty; and the response data is the app hash. -/
theorem C2_commit_postcondition (s : State) :
    Commit s =
      (commitStrAfter s,
       { db := { app := s.db.app,
                 stateRec := some ⟨s.Size, s.Height + 1, commitStrAfter s,
                                   s.UncommitKeys, commitStrAfter s⟩ },
         Size := s.Size, Height := s.Height + 1, AppHash := commitStrAfter s,
         UncommitKeys := [], CommitStr := commitStrAfter s }) := by
  unfold Commit saveState commitStrAfter
  rw [commitLoop_eq_accSpec]
  simp

/-- An engine state reached by setting key "A" and then deleting it: the key
remains in the uncommitted-key tracker while its store value is absent. -/
def c3State : State := DeleteStateDB (bytes "A") (SetStateDB (bytes "A") (bytes "1") initState)

/-- C3 as stated is false: in this reachable state (set "A" then delete "A"
from the fresh state) the app hash equals the byte representation of the
commit string, the uncommitted keys are non-empty, and yet Commit leaves the
app hash unchanged, because every uncommitted key is absent from the store and
the accumulator stays empty. -/
theorem C3_counterexample :
    c3State.AppHash = c3State.CommitStr ∧
    c3State.UncommitKeys ≠ [] ∧
    (Commit c3State).2.AppHash = c3State.AppHash := by decide

/-- C3 amended: for every engine state satisfying the invariant that the app
hash is the byte representation of the commit string (true of every reachable
state), if the uncommitted keys are empty at commit time then the app hash
after Commit is unchanged; the converse direction of the original claim fails
(see the counterexample). -/
theorem C3_hash_purity_amended (s : State)
    (hinv : s.AppHash = s.CommitStr) (hempty : s.UncommitKeys = []) :
    (Commit s).2.AppHash = s.AppHash := by
  simp [Commit, hempty, commitLoop, hinv, saveState]

theorem C3_hash_purity_amended_witness :
    (initState.AppHash = initState.CommitStr) ∧
    (initState.UncommitKeys = []) ∧
    (Commit initState).2.AppHash = initState.AppHash :=
  ⟨by decide, by decide, C3_hash_purity_amended initState (by decide) (by decide)⟩

/-- C4 as stated is false: this transaction decodes to a string with six
fields, yet DeliverTx answers neither a WrongTransactionFormat nor a
DecodingError response; the router reports the unknown method instead (and the
state is untouched).  The decoded string is "Q|b|c|d|e|f". -/
theorem C4_counterexample :
    (splitOnByte 124 ((base64Decode (bytes "UXxifGN8ZHxlfGY=")).getD [])).length = 6 ∧
    (DeliverTx trivialCodec (bytes "UXxifGN8ZHxlfGY=") initState).1.Code ≠
      CodeT.WrongTransactionFormat ∧
    (DeliverTx trivialCodec (bytes "UXxifGN8ZHxlfGY=") initState).1.Code ≠
      CodeT.DecodingError ∧
    (DeliverTx trivialCodec (bytes "UXxifGN8ZHxlfGY=") initState).2 = initState := by
  decide

/-- C4 amended: a transaction whose outer-decoded string splits into fewer
than five fields yields the transport-format failure with no state mutation;
a split into more than five fields is not rejected, the first five fields are
used. -/
theorem C4_format_rejection_amended (c : Codec) (tx : Bytes) (s : State)
    (decoded : Bytes) (hdec : base64Decode tx = some decoded)
    (hlen : (splitOnByte 124 decoded).length < 5) :
    DeliverTx c tx s =
      (ReturnDeliverTxLog .WrongTransactionFormat (bytes "wrong transaction format") [], s) := by
  have hval : isValidatorTx tx = false := by
    cases hv : isValidatorTx tx
    · rfl
    · rw [validator_not_base64 tx hv] at hdec
      exact absurd hdec (by simp)
  unfold DeliverTx
  rw [hval, hdec]
  dsimp only
  rw [if_neg (by simp [Bool.false_eq_true]), if_neg (Nat.not_le.mpr hlen)]

theorem C4_format_rejection_amended_witness :
    base64Decode (bytes "b25seW9uZWZpZWxk") = some (bytes "onlyonefield") ∧
    (splitOnByte 124 (bytes "onlyonefield")).length < 5 ∧
    DeliverTx trivialCodec (bytes "b25seW9uZWZpZWxk") initState =
      (ReturnDeliverTxLog .WrongTransactionFormat (bytes "wrong transaction format") [],
       initState) :=
  ⟨by decide, by decide,
   C4_format_rejection_amended trivialCodec (bytes "b25seW9uZWZpZWxk") initState
     (bytes "onlyonefield") (by decide) (by decide)⟩

/-- C5 as stated is false: SetStateDB with the raw key "stateKey" does not
append the key to the uncommitted-key tracker. -/
theorem C5_counterexample :
    ¬ ((SetStateDB (bytes "stateKey") (bytes "v") initState).UncommitKeys =
        initState.UncommitKeys ++ [bytes "stateKey"]) := by decide

/-- C5 amended: for every key other than the literal "stateKey", SetStateDB
writes the value under the namespace-prefixed key, appends the raw key to the
uncommitted keys (duplicates permitted) and increments the size counter by
one, also on overwrites; for the key "stateKey" the write and the size
increment still happen but the key is not appended. -/
theorem C5_set_state_db_amended (key value : Bytes) (s : State)
    (h : key ≠ bytes "stateKey") :
    (SetStateDB key value s).UncommitKeys = s.UncommitKeys ++ [key] ∧
    assocGet (SetStateDB key value s).db.app (prefixKey key) = some value ∧
    (SetStateDB key value s).Size = s.Size + 1 := by
  refine ⟨?_, ?_, ?_⟩
  · simp [SetStateDB, h]
  · simp [SetStateDB, assocGet_assocSet_self]
  · rfl

theorem C5_set_state_db_amended_witness :
    (bytes "A" ≠ bytes "stateKey") ∧
    ((SetStateDB (bytes "A") (bytes "1") initState).UncommitKeys =
        initState.UncommitKeys ++ [bytes "A"] ∧
     assocGet (SetStateDB (bytes "A") (bytes "1") initState).db.app
        (prefixKey (bytes "A")) = some (bytes "1") ∧
     (SetStateDB (bytes "A") (bytes "1") initState).Size = initState.Size + 1) :=
  ⟨by decide, C5_set_state_db_amended (bytes "A") (bytes "1") initState (by decide)⟩

/-- C6 as stated is false: this transaction decodes (after space
normalization) to "a|b|c|d|e|f", a six-field string, yet CheckTx accepts it;
a wrong field count does not force rejection when at least five fields are
present. -/
theorem C6_counterexample :
    (CheckTx (bytes "YXxifGN8ZHxlfGY=") initState).1.accepted = true ∧
    (splitOnByte 124
      ((base64Decode (replaceSpacePlus (bytes "YXxifGN8ZHxlfGY="))).getD [])).length ≠ 5 := by
  decide

/-- C6 amended: for every non-validator CheckTx input, the call accepts
exactly when the space-normalized base64 decode succeeds and the decoded
string splits into at least five fields of which the first five (method,
parameter, nonce, signature, nodeID) are all non-empty; fewer than five
fields, a decode failure, or an empty field among the first five is rejected;
and no state access occurs in any case. -/
theorem C6_check_tx_amended (tx : Bytes) (s : State)
    (hval : isValidatorTx tx = false) :
    ((CheckTx tx s).1.accepted = true ↔
      ∃ decoded, base64Decode (replaceSpacePlus tx) = some decoded ∧
        5 ≤ (splitOnByte 124 decoded).length ∧
        (splitOnByte 124 decoded).getD 0 [] ≠ [] ∧
        (splitOnByte 124 decoded).getD 1 [] ≠ [] ∧
        (splitOnByte 124 decoded).getD 2 [] ≠ [] ∧
        (splitOnByte 124 decoded).getD 3 [] ≠ [] ∧
        (splitOnByte 124 decoded).getD 4 [] ≠ []) ∧
    (CheckTx tx s).2 = s := by
  refine ⟨?_, CheckTx_state tx s⟩
  unfold CheckTx
  rw [hval]
  rw [if_neg (by simp [Bool.false_eq_true])]
  cases hdec : base64Decode (replaceSpacePlus tx) with
  | none =>
    dsimp only
    constructor
    · intro h
      exact absurd h (by simp [ReturnCheckTx])
    · rintro ⟨d, hd, -⟩
      exact absurd hd (by simp)
  | some decoded =>
    dsimp only
    by_cases hlen : 5 ≤ (splitOnByte 124 decoded).length
    · rw [if_pos hlen]
      by_cases hf : (splitOnByte 124 decoded).getD 0 [] ≠ [] ∧
          (splitOnByte 124 decoded).getD 1 [] ≠ [] ∧
          (splitOnByte 124 decoded).getD 2 [] ≠ [] ∧
          (splitOnByte 124 decoded).getD 3 [] ≠ [] ∧
          (splitOnByte 124 decoded).getD 4 [] ≠ []
      · rw [if_pos hf]
        constructor
        · intro _
          exact ⟨decoded, rfl, hlen, hf.1, hf.2.1, hf.2.2.1, hf.2.2.2.1, hf.2.2.2.2⟩
        · intro _
          rfl
      · rw [if_neg hf]
        constructor
        · intro h
          exact absurd h (by simp [ReturnCheckTx])
        · rintro ⟨d, hd, -, h1, h2, h3, h4, h5⟩
          injection hd with hd
          subst hd
          exact (hf ⟨h1, h2, h3, h4, h5⟩).elim
    · rw [if_neg hlen]
      constructor
      · intro h
        exact absurd h (by simp [ReturnCheckTx])
      · rintro ⟨d, hd, hl, -⟩
        injection hd with hd
        subst hd
        exact (hlen hl).elim

theorem C6_check_tx_amended_witness :
    (isValidatorTx (bytes "YWI fHB8bnxzfGk=") = false) ∧
    (((CheckTx (bytes "YWI fHB8bnxzfGk=") initState).1.accepted = true ↔
      ∃ decoded, base64Decode (replaceSpacePlus (bytes "YWI fHB8bnxzfGk=")) = some decoded ∧
        5 ≤ (splitOnByte 124 decoded).length ∧
        (splitOnByte 124 decoded).getD 0 [] ≠ [] ∧
        (splitOnByte 124 decoded).getD 1 [] ≠ [] ∧
        (splitOnByte 124 decoded).getD 2 [] ≠ [] ∧
        (splitOnByte 124 decoded).getD 3 [] ≠ [] ∧
        (splitOnByte 124 decoded).getD 4 [] ≠ []) ∧
     (CheckTx (bytes "YWI fHB8bnxzfGk=") initState).2 = initState) :=
  ⟨by decide, C6_check_tx_amended (bytes "YWI fHB8bnxzfGk=") initState (by decide)⟩

/-- C7: no sequence of CheckTx calls changes any observable engine state: the
store, size, height, app hash, uncommitted keys and commit string are exactly
as before the sequence. -/
theorem C7_check_isolation (txs : List Bytes) (s : State) :
    txs.foldl (fun st tx => (CheckTx tx st).2) s = s := by
  induction txs generalizing s with
  | nil => rfl
  | cons tx rest ih => rw [List.foldl_cons, CheckTx_state, ih]

/-- C8: Commit persists the state record before clearing the uncommitted
keys, so the persisted record carries the full list of keys mutated in the
just-committed block, and a loadState from the committed database restores
exactly that list; in particular it is non-empty whenever the block mutated
any key. -/
theorem C8_persisted_uncommit_keys (s : State) :
    (Commit s).2.db.stateRec =
      some ⟨s.Size, s.Height + 1, commitStrAfter s, s.UncommitKeys, commitStrAfter s⟩ ∧
    (loadState (Commit s).2.db).UncommitKeys = s.UncommitKeys ∧
    (s.UncommitKeys ≠ [] → (loadState (Commit s).2.db).UncommitKeys ≠ []) := by
  unfold Commit saveState commitStrAfter loadState
  rw [commitLoop_eq_accSpec]
  simp

theorem C8_persisted_uncommit_keys_witness :
    ((SetStateDB (bytes "A") (bytes "1") initState).UncommitKeys ≠ []) ∧
    (loadState (Commit (SetStateDB (bytes "A") (bytes "1") initState)).2.db).UncommitKeys ≠ [] :=
  ⟨by decide,
   (C8_persisted_uncommit_keys (SetStateDB (bytes "A") (bytes "1") initState)).2.2 (by decide)⟩

/-- C9: CheckTx replaces spaces by pluses before decoding while DeliverTx
decodes the raw bytes directly; on this transaction, whose base64 text
contains a space, CheckTx accepts while DeliverTx answers a DecodingError —
for every codec.  The normalized text decodes to "ab>|p|n|s|i". -/
theorem C9_checktx_delivertx_divergence (c : Codec) :
    (CheckTx (bytes "YWI fHB8bnxzfGk=") initState).1.accepted = true ∧
    (DeliverTx c (bytes "YWI fHB8bnxzfGk=") initState).1.Code = CodeT.DecodingError := by
  constructor
  · decide
  · have h1 : isValidatorTx (bytes "YWI fHB8bnxzfGk=") = false := by decide
    have h2 : base64Decode (bytes "YWI fHB8bnxzfGk=") = none := by decide
    unfold DeliverTx
    rw [h1, h2]
    rfl

/-- C10: signData is atomic on error: whenever it answers a non-OK code, no
SetStateDB call has happened and the engine state (store, size, uncommitted
keys) is exactly the input state; the two SetStateDB calls happen only on the
OK path. -/
theorem C10_signData_atomic (c : Codec) (param : Bytes) (s : State) (nodeID : Bytes)
    (h : (signData c param s nodeID).1.Code ≠ CodeT.OK) :
    (signData c param s nodeID).2 = s :=
  (signData_frame c param s nodeID).resolve_left h

theorem C10_signData_atomic_witness :
    ((signData trivialCodec [] initState []).1.Code ≠ CodeT.OK) ∧
    (signData trivialCodec [] initState []).2 = initState :=
  ⟨by decide, C10_signData_atomic trivialCodec [] initState [] (by decide)⟩

end Did
